import Mathlib

/-!
Verification of the capture pipeline of the pcap-ffxiv repository.

The central object is the frame processor (`_processFrame` in src/pcap-ffxiv.ts),
embedded here as a pure function from a capture state, an inflate oracle and the
frame bytes to the list of emitted events plus an optional uncaught exception.
The frame reassembler loop (`_registerInternalHandlers`), the opcode cache
(`updateOpcodesCache`) and the Node.js event-emitter delivery semantics used by
the `ready` event are embedded alongside.

Bytes are modelled as natural numbers; buffers as lists of bytes.  JavaScript
exceptions are modelled as an `Option String` carried out of the processing
functions (`none` = normal completion), since the source has no try/catch around
the code paths that can throw.
-/

/-- Byte access on a buffer, `(l.get? i).getD 0`.  Reads past the end yield 0,
matching the zero-fill boundary policy the spec gives for truncated reads. -/
def byteAt (l : List Nat) (i : Nat) : Nat := (l.get? i).getD 0

/-- Little-endian 16-bit read at offset `o`. -/
def readUInt16LE (l : List Nat) (o : Nat) : Nat :=
  byteAt l o + 256 * byteAt l (o + 1)

/-- Little-endian 32-bit read at offset `o`. -/
def readUInt32LE (l : List Nat) (o : Nat) : Nat :=
  byteAt l o + 256 * byteAt l (o + 1) + 65536 * byteAt l (o + 2) + 16777216 * byteAt l (o + 3)

/-- Little-endian 64-bit read at offset `o`. -/
def readUInt64LE (l : List Nat) (o : Nat) : Nat :=
  readUInt32LE l o + 4294967296 * readUInt32LE l (o + 4)

/-- Modelled from the spec: FRAME_HEADER_SIZE from src/constants.ts (not among the
sources).  Spec scenario 1 ("a 40-byte frame with keepalive magic, segmentCount=0")
fixes the frame header at 40 bytes. -/
def FRAME_HEADER_SIZE : Nat := 40

/-- Modelled from the spec: SEG_HEADER_SIZE from src/constants.ts (not among the
sources); the fixed-width segment header (size, source actor, target actor, type,
padding) occupies 16 bytes. -/
def SEG_HEADER_SIZE : Nat := 16

/-- Modelled from the spec: IPC_HEADER_SIZE from src/constants.ts (not among the
sources); the fixed-width IPC header (reserved, opcode, server id, timestamp,
reserved tail) occupies 16 bytes. -/
def IPC_HEADER_SIZE : Nat := 16

/-- Frame header record, per §3 of the spec (src/models is not among the sources):
16-byte magic, timestamp, total size, connection-type tag, segment count,
compression flag. -/
structure FrameHeader where
  magic : List Nat
  timestamp : Nat
  size : Nat
  connectionType : Nat
  segmentCount : Nat
  isCompressed : Bool
deriving DecidableEq, Repr

/-- Segment header record, per §3 of the spec and the SegmentHeader interface in
the sources: total size, source actor, target actor, segment type. -/
structure SegmentHeader where
  size : Nat
  sourceActor : Nat
  targetActor : Nat
  segmentType : Nat
deriving DecidableEq, Repr

/-- IPC header record, per §3 of the spec: reserved, IPC type (the opcode),
server id, timestamp. -/
structure IpcHeader where
  reserved : Nat
  type : Nat
  serverId : Nat
  timestamp : Nat
deriving DecidableEq, Repr

/-- Modelled from the spec: SegmentType.Ipc from src/models/SegmentType (not among
the sources).  The IPC member of the segment-type enumeration. -/
def SegmentType.Ipc : Nat := 3

/-- Modelled from the spec: parseFrameHeader from src/frame-processing.ts (not
among the sources).  Reads the fixed little-endian frame-header layout from
offset 0: magic bytes 0..15, timestamp u64 at 16, size u32 at 24, connection
type u16 at 28, segment count u16 at 30, compression flag byte at 33. -/
def parseFrameHeader (l : List Nat) : FrameHeader :=
  { magic := (List.range 16).map (byteAt l)
    timestamp := readUInt64LE l 16
    size := readUInt32LE l 24
    connectionType := readUInt16LE l 28
    segmentCount := readUInt16LE l 30
    isCompressed := byteAt l 33 != 0 }

/-- Modelled from the spec: parseSegmentHeader from src/frame-processing.ts (not
among the sources).  Reads the fixed little-endian segment-header layout from
offset 0: size u32 at 0, source actor u32 at 4, target actor u32 at 8, segment
type u16 at 12.  Truncated reads zero-fill, per the boundary policy of §4.1. -/
def parseSegmentHeader (l : List Nat) : SegmentHeader :=
  { size := readUInt32LE l 0
    sourceActor := readUInt32LE l 4
    targetActor := readUInt32LE l 8
    segmentType := readUInt16LE l 12 }

/-- Modelled from the spec: parseIpcHeader from src/frame-processing.ts (not
among the sources).  Reads the fixed little-endian IPC-header layout from offset
0: reserved u16 at 0, IPC type (opcode) u16 at 2, server id u16 at 6, timestamp
u32 at 8. -/
def parseIpcHeader (l : List Nat) : IpcHeader :=
  { reserved := readUInt16LE l 0
    type := readUInt16LE l 2
    serverId := readUInt16LE l 6
    timestamp := readUInt32LE l 8 }

/-- Modelled from the spec: the standard protocol magic, one of the two accepted
16-byte magic values of §6 (src/frame-processing.ts is not among the sources). -/
def FRAME_MAGIC : List Nat :=
  [82, 82, 160, 65, 255, 93, 70, 226, 127, 42, 100, 77, 123, 153, 196, 117]

/-- Modelled from the spec: the keepalive magic, the second accepted 16-byte
magic value of §6. -/
def KEEPALIVE_MAGIC : List Nat := List.replicate 16 0

/-- Modelled from the spec: isMagical from src/frame-processing.ts (not among
the sources).  A header is magical when its 16-byte magic equals one of the two
accepted values. -/
def isMagical (h : FrameHeader) : Bool :=
  h.magic == FRAME_MAGIC || h.magic == KEEPALIVE_MAGIC

/-- Modelled from the spec: the per-flow QueueBuffer (src/QueueBuffer.ts is not
among the sources) observed through its FIFO contract of §4.2: push appends,
peek returns the next n bytes without consuming (none when fewer are buffered),
pop consumes. -/
abbrev QueueBuffer := List Nat

namespace QueueBuffer

/-- push appends the fragment to the buffered bytes. -/
def push (b : QueueBuffer) (bytes : List Nat) : QueueBuffer := b ++ bytes

/-- size is the number of buffered bytes. -/
def size (b : QueueBuffer) : Nat := b.length

/-- peek returns the next n bytes without consuming, or none if fewer are
buffered. -/
def peek (b : QueueBuffer) (n : Nat) : Option (List Nat) :=
  if b.length < n then none else some (b.take n)

/-- pop returns and consumes the next n bytes. -/
def pop (b : QueueBuffer) (n : Nat) : List Nat × QueueBuffer :=
  (b.take n, b.drop n)

end QueueBuffer

/-- Modelled from the spec: tryGetFrameHeader from src/frame-processing.ts (not
among the sources).  Peeks FRAME_HEADER_SIZE bytes; returns none if fewer are
buffered, else the parsed header without consuming. -/
def tryGetFrameHeader (buf : QueueBuffer) : Option FrameHeader :=
  match QueueBuffer.peek buf FRAME_HEADER_SIZE with
  | none => none
  | some bytes => some (parseFrameHeader bytes)

/-- Modelled from the spec: roundToNextPowerOf2 from src/memory.ts (not among
the sources): the smallest power of two at least n (helper loop, fuel-based). -/
def nextPow2Go : Nat → Nat → Nat → Nat
  | 0, _, acc => acc
  | fuel + 1, n, acc => if n ≤ acc then acc else nextPow2Go fuel n (acc * 2)

/-- Modelled from the spec: roundToNextPowerOf2 from src/memory.ts (not among
the sources).  Used to size the over-allocated IPC body buffer (§4.6 step 3b). -/
def roundToNextPowerOf2 (n : Nat) : Nat := nextPow2Go n n 1

/-- The emitted segment record of pcap-ffxiv.ts lines 209-213: header, and for
IPC segments the IPC header, the raw IPC body and the optionally decoded body.
`α` is the decoder result type (the source types it as `any`). -/
structure Segment (α : Type) where
  header : SegmentHeader
  ipcHeader : Option IpcHeader
  ipcData : Option (List Nat)
  parsedIpcData : Option α
deriving DecidableEq, Repr

/-- Source or destination address of an emitted packet. -/
structure Addr where
  address : String
  port : Nat
deriving DecidableEq, Repr

/-- The child frame inside an emitted packet: frame header plus the processed
segment list. -/
structure ChildFrame (α : Type) where
  header : FrameHeader
  segments : List (Segment α)
deriving DecidableEq, Repr

/-- The emitted packet record of pcap-ffxiv.ts lines 166-179. -/
structure Packet (α : Type) where
  source : Addr
  destination : Addr
  childFrame : ChildFrame α
deriving DecidableEq, Repr

/-- The events the CaptureInterface can emit while processing one frame.  The
diagnostics payload (a wall-clock duration) carries no modelled data.  The error
event is part of the declared event interface (pcap-ffxiv.ts line 255). -/
inductive Event (α : Type) where
  | message (typeName : String) (seg : Segment α)
  | segment (seg : Segment α)
  | packet (pkt : Packet α)
  | diagnostics
  | error (err : String)
deriving DecidableEq, Repr

/-- The flat opcode-to-name map this._opcodes, as an association list whose
front entry wins on lookup. -/
abbrev OpcodeMap := List (Nat × String)

/-- A per-region constants table (the JSON is a map of named constants). -/
abbrev ConstantsList := List (String × Nat)

/-- A decoder from the packet-definition registry: raw IPC body bytes and the
selected region constants (possibly undefined) to a decoded record, or a thrown
exception. -/
abbrev Decoder (α : Type) := List Nat → Option ConstantsList → Except String α

/-- The mutable state of CaptureInterface consulted by _processFrame:
this._opcodes (none models the `undefined` that updateOpcodesCache can store),
this._constants, this._region and this._packetDefs. -/
structure CaptureState (α : Type) where
  opcodes : Option OpcodeMap
  constants : Option (List (String × ConstantsList))
  region : String
  packetDefs : List (String × Decoder α)

/-- One opcode entry of the downloaded opcode lists. -/
structure OpcodeEntry where
  name : String
  opcode : Nat
deriving DecidableEq, Repr

/-- One region entry of the downloaded opcode lists, with its two zone lists. -/
structure OpcodeList where
  region : String
  serverZoneIpcType : List OpcodeEntry
  clientZoneIpcType : List OpcodeEntry
deriving DecidableEq, Repr

/-- updateOpcodesCache (pcap-ffxiv.ts lines 75-87): find the region entry,
concatenate its two zone lists and build the flat opcode-to-name object.  When
the lists are not loaded or the region is absent, the optional chaining makes
the whole expression undefined and this._opcodes is set to undefined (none).
The JS reduce lets a later entry overwrite an earlier one with the same opcode;
consing to the front with front-wins lookup models that. -/
def updateOpcodesCache (opcodeLists : Option (List OpcodeList)) (region : String) :
    Option OpcodeMap :=
  match opcodeLists with
  | none => none
  | some ls =>
    match ls.find? (fun ol => ol.region == region) with
    | none => none
    | some ol =>
      some ((ol.serverZoneIpcType ++ ol.clientZoneIpcType).foldl
        (fun acc e => (e.opcode, e.name) :: acc) [])

/-- Lookup in the flat opcode map, this._opcodes[type]. -/
def opcodeLookup (m : OpcodeMap) (op : Nat) : Option String :=
  (m.find? (fun p => p.1 == op)).map Prod.snd

/-- Lookup in the packet-definition registry, this._packetDefs[typeName]. -/
def lookupDef {α : Type} (defs : List (String × Decoder α)) (name : String) :
    Option (Decoder α) :=
  (defs.find? (fun p => p.1 == name)).map Prod.snd

/-- this._constants[this._region]: select the region constants, possibly
undefined. -/
def constantsFor (cs : List (String × ConstantsList)) (region : String) :
    Option ConstantsList :=
  (cs.find? (fun p => p.1 == region)).map Prod.snd

/-- typeName[0].toLowerCase() + typeName.slice(1) (pcap-ffxiv.ts line 219). -/
def lowerFirst (s : String) : String :=
  match s.data with
  | [] => s
  | c :: cs => String.mk (c.toLower :: cs)

/-- The message name computed at pcap-ffxiv.ts lines 218-219: the opcode map
entry when present and truthy (JS `|| "unknown"` replaces the empty string too),
else the literal "unknown", with its first character lowered. -/
def resolveName (m : OpcodeMap) (op : Nat) : String :=
  lowerFirst (match opcodeLookup m op with
    | some s => if s == "" then "unknown" else s
    | none => "unknown")

/-- The exception thrown by the property read this._opcodes[...] when
this._opcodes is undefined. -/
def typeErrorMsg : String := "TypeError: Cannot read properties of undefined"

/-- Buffer.alloc(n) followed by src.copy(dst): the source bytes truncated at n
and zero-padded up to n. -/
def bufCopy (src : List Nat) (n : Nat) : List Nat :=
  src.take n ++ List.replicate (n - src.length) 0

/-- The over-allocated raw IPC body built at pcap-ffxiv.ts lines 203-206: the
bytes of the segment past both headers, copied into a zero-filled buffer sized
to the next power of two of segHdr.size - SEG_HEADER_SIZE - IPC_HEADER_SIZE. -/
def ipcDataAt (remainder : List Nat) (offset : Nat) : List Nat :=
  let segmentHeader := parseSegmentHeader (remainder.drop offset)
  let ipcPayload := remainder.drop (offset + SEG_HEADER_SIZE)
  bufCopy (ipcPayload.drop IPC_HEADER_SIZE)
    (roundToNextPowerOf2 (segmentHeader.size - SEG_HEADER_SIZE - IPC_HEADER_SIZE))

/-- The result of one iteration of the segment loop: the segment record pushed
into the packet, the events emitted by the iteration, an uncaught exception if
one was thrown, and the next offset. -/
structure SegResult (α : Type) where
  seg : Segment α
  events : List (Event α)
  thrown : Option String
  nextOffset : Nat

/-- One iteration of the segment loop of _processFrame (pcap-ffxiv.ts lines
196-233): parse the segment header at the offset; for IPC segments parse the
IPC header, build the raw body, resolve the opcode name (throwing if
this._opcodes is undefined), run the registered decoder when the registry has
the name and constants are loaded (its exception propagates uncaught), emit
message then segment; for other segments emit only segment. -/
def processOneSegment {α : Type} (st : CaptureState α) (remainder : List Nat)
    (offset : Nat) : SegResult α :=
  let segmentHeader := parseSegmentHeader (remainder.drop offset)
  if segmentHeader.segmentType == SegmentType.Ipc then
    let ipcHeader := parseIpcHeader (remainder.drop (offset + SEG_HEADER_SIZE))
    let ipcData := ipcDataAt remainder offset
    match st.opcodes with
    | none =>
      { seg := { header := segmentHeader, ipcHeader := some ipcHeader,
                 ipcData := some ipcData, parsedIpcData := none }
        events := []
        thrown := some typeErrorMsg
        nextOffset := offset + segmentHeader.size }
    | some m =>
      let typeName := resolveName m ipcHeader.type
      match lookupDef st.packetDefs typeName, st.constants with
      | some dec, some cs =>
        match dec ipcData (constantsFor cs st.region) with
        | Except.error e =>
          { seg := { header := segmentHeader, ipcHeader := some ipcHeader,
                     ipcData := some ipcData, parsedIpcData := none }
            events := []
            thrown := some e
            nextOffset := offset + segmentHeader.size }
        | Except.ok v =>
          let seg : Segment α :=
            { header := segmentHeader, ipcHeader := some ipcHeader,
              ipcData := some ipcData, parsedIpcData := some v }
          { seg := seg
            events := [Event.message typeName seg, Event.segment seg]
            thrown := none
            nextOffset := offset + segmentHeader.size }
      | _, _ =>
        let seg : Segment α :=
          { header := segmentHeader, ipcHeader := some ipcHeader,
            ipcData := some ipcData, parsedIpcData := none }
        { seg := seg
          events := [Event.message typeName seg, Event.segment seg]
          thrown := none
          nextOffset := offset + segmentHeader.size }
  else
    let seg : Segment α :=
      { header := segmentHeader, ipcHeader := none, ipcData := none,
        parsedIpcData := none }
    { seg := seg
      events := [Event.segment seg]
      thrown := none
      nextOffset := offset + segmentHeader.size }

/-- The segment loop of _processFrame (pcap-ffxiv.ts lines 195-233), iterated
segmentCount times.  Returns the segments pushed into the packet, the emitted
events in order, and the first uncaught exception (which aborts the loop; the
throwing iteration has already pushed its segment). -/
def processSegments {α : Type} (st : CaptureState α) (remainder : List Nat) :
    Nat → Nat → List (Segment α) × List (Event α) × Option String
  | 0, _ => ([], [], none)
  | n + 1, offset =>
    let r := processOneSegment st remainder offset
    match r.thrown with
    | some e => ([r.seg], r.events, some e)
    | none =>
      let rest := processSegments st remainder n r.nextOffset
      (r.seg :: rest.1, r.events ++ rest.2.1, rest.2.2)

/-- The output of _processFrame: the emitted events in order and the uncaught
exception, if one escaped. -/
structure ProcOutput (α : Type) where
  events : List (Event α)
  thrown : Option String
deriving DecidableEq, Repr

/-- The tail of _processFrame after decompression (pcap-ffxiv.ts lines 195-240):
run the segment loop over the body, then, if no exception escaped, emit the
packet holding the processed segments followed by the diagnostics event. -/
def processBody {α : Type} (st : CaptureState α) (frameHeader : FrameHeader)
    (remainder : List Nat) (srcAddr dstAddr : String) (srcPort dstPort : Nat) :
    ProcOutput α :=
  let res := processSegments st remainder frameHeader.segmentCount 0
  match res.2.2 with
  | some e => { events := res.2.1, thrown := some e }
  | none =>
    let pkt : Packet α :=
      { source := { address := srcAddr, port := srcPort }
        destination := { address := dstAddr, port := dstPort }
        childFrame := { header := frameHeader, segments := res.1 } }
    { events := res.2.1 ++ [Event.packet pkt, Event.diagnostics], thrown := none }

/-- _processFrame (pcap-ffxiv.ts lines 156-241).  The body is the frame past its
header.  When the frame is compressed it is inflated (`inflate` is the pako
oracle); an inflate error equal to "incorrect header check" returns with no
events; any other inflate error is swallowed by the catch block and processing
continues with the original, still-compressed body. -/
def processFrame {α : Type} (st : CaptureState α)
    (inflate : List Nat → Except String (List Nat)) (frameHeader : FrameHeader)
    (buf : List Nat) (srcAddr dstAddr : String) (srcPort dstPort : Nat) :
    ProcOutput α :=
  let remainder0 := buf.drop FRAME_HEADER_SIZE
  if frameHeader.isCompressed then
    match inflate remainder0 with
    | Except.ok d => processBody st frameHeader d srcAddr dstAddr srcPort dstPort
    | Except.error err =>
      if err == "incorrect header check" then { events := [], thrown := none }
      else processBody st frameHeader remainder0 srcAddr dstAddr srcPort dstPort
  else processBody st frameHeader remainder0 srcAddr dstAddr srcPort dstPort

/-- The frame-reassembly drain loop of _registerInternalHandlers (pcap-ffxiv.ts
lines 142-153): while a full header can be peeked, is magical, and the buffer
holds at least header.size bytes, pop header.size bytes as one frame.  The
source loop has no fuel; the fuel argument only serves Lean's termination and
any fuel at least the number of complete frames is enough. -/
def drainFrames : Nat → QueueBuffer → List (FrameHeader × List Nat) × QueueBuffer
  | 0, buf => ([], buf)
  | fuel + 1, buf =>
    match tryGetFrameHeader buf with
    | none => ([], buf)
    | some h =>
      if isMagical h = true ∧ h.size ≤ QueueBuffer.size buf then
        let frame := (QueueBuffer.pop buf h.size).1
        let rest := drainFrames fuel (QueueBuffer.pop buf h.size).2
        ((h, frame) :: rest.1, rest.2)
      else ([], buf)

/-- The loop guard of the drain loop fails on this buffer: fewer bytes than a
frame header, or a non-magical candidate header, or an incomplete frame. -/
def drainStalled (buf : QueueBuffer) : Prop :=
  buf.length < FRAME_HEADER_SIZE ∨
    isMagical (parseFrameHeader (buf.take FRAME_HEADER_SIZE)) = false ∨
    buf.length < (parseFrameHeader (buf.take FRAME_HEADER_SIZE)).size

/-- The registry keys of loadPacketProcessors
(src/packet-processors/load-packet-processors.ts), in source order. -/
def packetProcessorNames : List String :=
  ["actorCast", "actorControl", "actorControlSelf", "actorControlTarget",
   "actorFreeSpawn", "actorGauge", "actorMove", "actorOwner", "actorSetPos",
   "blackList", "cFAvailableContents", "cFDutyInfo", "cFPlayerInNeed",
   "cFRegisterDuty", "charaVisualEffect", "clientTrigger",
   "currencyCrystalInfo", "desynthResult", "effectResult", "eorzeaTimeOffset",
   "equipDisplayFlags", "eventPlay", "eventPlay32", "eventPlay4", "eventPlay8",
   "eventPlayN", "freeCompanyUpdateShortMessage", "initZone",
   "inventoryModifyHandler", "inventoryTransaction", "itemInfo", "logMessage",
   "marketBoardItemListingCount", "marketBoardItemListingHistory",
   "marketBoardSearchResult", "marketTaxRates", "mount", "npcSpawn",
   "objectSpawn", "persistentEffect", "playerSetup", "playerSpawn",
   "playerStats", "playTime", "prepareZoning", "reductionResult",
   "retainerInformation", "serverNotice", "someDirectorUnk4",
   "statusEffectList", "updateClassInfo", "updateHpMpTp",
   "updateInventorySlot", "updatePositionHandler", "updatePositionInstance",
   "useMooch", "weatherChange"]

/-- Node.js EventEmitter state as used by CaptureInterface: the registered
listeners (event name and listener id), the log of emitted event names, and the
log of deliveries (event name, listener id). -/
structure Emitter where
  listeners : List (String × Nat)
  emitted : List String
  delivered : List (String × Nat)
deriving DecidableEq, Repr

namespace Emitter

/-- EventEmitter.on (embedded under its Node alias addListener, `on` being a
reserved token here): registers a listener; registration alone delivers
nothing. -/
def addListener (e : Emitter) (ev : String) (l : Nat) : Emitter :=
  { e with listeners := e.listeners ++ [(ev, l)] }

/-- EventEmitter.emit: synchronously invokes the listeners registered for the
event at emit time; there is no replay to listeners registered later. -/
def emit (e : Emitter) (ev : String) : Emitter :=
  { e with
    emitted := e.emitted ++ [ev]
    delivered := e.delivered ++
      (e.listeners.filter (fun p => p.1 == ev)).map (fun p => (ev, p.2)) }

end Emitter

/-- The constructor flow of pcap-ffxiv.ts lines 64-67:
_loadOpcodes().then(async () => { await _loadConstants(); emit("ready") }).
The ready event is emitted once, only after both loads succeed; a failed load
leaves it unemitted. -/
def initReady (e : Emitter) (opcodesLoaded constantsLoaded : Bool) : Emitter :=
  if opcodesLoaded then
    (if constantsLoaded then Emitter.emit e "ready" else e)
  else e

/-- The per-segment event block used to state the frame event ordering: a
message event immediately followed by the segment event for IPC segments, the
segment event alone otherwise. -/
def segEvents {α : Type} (p : String × Segment α) : List (Event α) :=
  match p.2.ipcHeader with
  | some _ => [Event.message p.1 p.2, Event.segment p.2]
  | none => [Event.segment p.2]

/-- The message name an iteration of the segment loop would use, read off the
state and the frame body (helper for stating the loop lemmas). -/
def msgNameAt {α : Type} (st : CaptureState α) (remainder : List Nat)
    (offset : Nat) : String :=
  resolveName (st.opcodes.getD [])
    (parseIpcHeader (remainder.drop (offset + SEG_HEADER_SIZE))).type

/-! ### Helper lemmas about one iteration of the segment loop -/

theorem processOneSegment_facts {α : Type} (st : CaptureState α)
    (remainder : List Nat) (offset : Nat) :
    (processOneSegment st remainder offset).seg.header =
        parseSegmentHeader (remainder.drop offset) ∧
    (processOneSegment st remainder offset).nextOffset =
        offset + (parseSegmentHeader (remainder.drop offset)).size ∧
    (processOneSegment st remainder offset).seg.ipcHeader.isSome =
        ((parseSegmentHeader (remainder.drop offset)).segmentType ==
          SegmentType.Ipc) ∧
    ((processOneSegment st remainder offset).thrown = none →
      (processOneSegment st remainder offset).events =
        segEvents (msgNameAt st remainder offset,
          (processOneSegment st remainder offset).seg)) ∧
    ((processOneSegment st remainder offset).thrown ≠ none →
      (processOneSegment st remainder offset).events = []) ∧
    (((parseSegmentHeader (remainder.drop offset)).segmentType ==
        SegmentType.Ipc) = false →
      processOneSegment st remainder offset =
        { seg := { header := parseSegmentHeader (remainder.drop offset),
                   ipcHeader := none, ipcData := none, parsedIpcData := none }
          events := [Event.segment
            { header := parseSegmentHeader (remainder.drop offset),
              ipcHeader := none, ipcData := none, parsedIpcData := none }]
          thrown := none
          nextOffset :=
            offset + (parseSegmentHeader (remainder.drop offset)).size }) := by
  cases hty : ((parseSegmentHeader (remainder.drop offset)).segmentType ==
      SegmentType.Ipc) with
  | false =>
    simp [processOneSegment, hty, segEvents]
  | true =>
    cases hop : st.opcodes with
    | none =>
      simp [processOneSegment, hty, hop, segEvents, typeErrorMsg]
    | some m =>
      cases hld : lookupDef st.packetDefs
          (resolveName m
            (parseIpcHeader (remainder.drop (offset + SEG_HEADER_SIZE))).type) with
      | none =>
        simp [processOneSegment, hty, hop, hld, segEvents, msgNameAt]
      | some dec =>
        cases hc : st.constants with
        | none =>
          simp [processOneSegment, hty, hop, hld, hc, segEvents, msgNameAt]
        | some cs =>
          cases hdec : dec (ipcDataAt remainder offset)
              (constantsFor cs st.region) with
          | error e =>
            simp [processOneSegment, hty, hop, hld, hc, hdec, segEvents]
          | ok v =>
            simp [processOneSegment, hty, hop, hld, hc, hdec, segEvents,
              msgNameAt]

/-! ### Helper lemmas about the segment loop -/

theorem processSegments_succ_thrown {α : Type} (st : CaptureState α)
    (remainder : List Nat) (n offset : Nat) (e : String)
    (h : (processOneSegment st remainder offset).thrown = some e) :
    processSegments st remainder (n + 1) offset =
      ([(processOneSegment st remainder offset).seg],
       (processOneSegment st remainder offset).events, some e) := by
  simp only [processSegments, h]

theorem processSegments_succ_ok {α : Type} (st : CaptureState α)
    (remainder : List Nat) (n offset : Nat)
    (h : (processOneSegment st remainder offset).thrown = none) :
    processSegments st remainder (n + 1) offset =
      ((processOneSegment st remainder offset).seg ::
          (processSegments st remainder n
            (processOneSegment st remainder offset).nextOffset).1,
       (processOneSegment st remainder offset).events ++
          (processSegments st remainder n
            (processOneSegment st remainder offset).nextOffset).2.1,
       (processSegments st remainder n
          (processOneSegment st remainder offset).nextOffset).2.2) := by
  simp only [processSegments, h]

theorem processSegments_length {α : Type} (st : CaptureState α)
    (remainder : List Nat) :
    ∀ n offset, (processSegments st remainder n offset).2.2 = none →
      (processSegments st remainder n offset).1.length = n := by
  intro n
  induction n with
  | zero => intro offset _; rfl
  | succ k ih =>
    intro offset hth
    cases h : (processOneSegment st remainder offset).thrown with
    | some e =>
      rw [processSegments_succ_thrown st remainder k offset e h] at hth
      simp at hth
    | none =>
      rw [processSegments_succ_ok st remainder k offset h] at hth ⊢
      simp only [List.length_cons]
      rw [ih _ hth]

theorem processSegments_pairs {α : Type} (st : CaptureState α)
    (remainder : List Nat) :
    ∀ n offset, (processSegments st remainder n offset).2.2 = none →
      ∃ pairs : List (String × Segment α),
        (processSegments st remainder n offset).1 = pairs.map Prod.snd ∧
        (processSegments st remainder n offset).2.1 =
          (pairs.map segEvents).flatten ∧
        ∀ p ∈ pairs, p.2.ipcHeader.isSome =
          (p.2.header.segmentType == SegmentType.Ipc) := by
  intro n
  induction n with
  | zero =>
    intro offset _
    exact ⟨[], rfl, rfl, by intro p hp; cases hp⟩
  | succ k ih =>
    intro offset hth
    cases h : (processOneSegment st remainder offset).thrown with
    | some e =>
      rw [processSegments_succ_thrown st remainder k offset e h] at hth
      simp at hth
    | none =>
      rw [processSegments_succ_ok st remainder k offset h] at hth ⊢
      obtain ⟨pairs, h1, h2, h3⟩ := ih _ hth
      obtain ⟨hhdr, -, hiso, hev, -, -⟩ :=
        processOneSegment_facts st remainder offset
      refine ⟨(msgNameAt st remainder offset,
        (processOneSegment st remainder offset).seg) :: pairs, ?_, ?_, ?_⟩
      · simp [h1]
      · simp [h2, hev h]
      · intro p hp
        rcases List.mem_cons.mp hp with hp | hp
        · rw [hp]
          show (processOneSegment st remainder offset).seg.ipcHeader.isSome =
            ((processOneSegment st remainder offset).seg.header.segmentType ==
              SegmentType.Ipc)
          rw [hhdr]; exact hiso
        · exact h3 p hp

theorem segEvents_mem {α : Type} (p : String × Segment α) (ev : Event α)
    (h : ev ∈ segEvents p) :
    ev = Event.segment p.2 ∨ ev = Event.message p.1 p.2 := by
  unfold segEvents at h
  cases hih : p.2.ipcHeader with
  | none => rw [hih] at h; rcases List.mem_singleton.mp h with h; exact Or.inl h
  | some ih =>
    rw [hih] at h
    rcases List.mem_cons.mp h with h | h
    · exact Or.inr h
    · exact Or.inl (List.mem_singleton.mp h)

theorem processSegments_events_mem {α : Type} (st : CaptureState α)
    (remainder : List Nat) :
    ∀ n offset ev, ev ∈ (processSegments st remainder n offset).2.1 →
      (∃ s, ev = Event.segment s) ∨ ∃ nm s, ev = Event.message nm s := by
  intro n
  induction n with
  | zero => intro offset ev h; cases h
  | succ k ih =>
    intro offset ev hev
    obtain ⟨-, -, -, hok, hthr, -⟩ := processOneSegment_facts st remainder offset
    cases h : (processOneSegment st remainder offset).thrown with
    | some e =>
      rw [processSegments_succ_thrown st remainder k offset e h] at hev
      rw [hthr (by rw [h]; intro hx; cases hx)] at hev
      cases hev
    | none =>
      rw [processSegments_succ_ok st remainder k offset h] at hev
      rcases List.mem_append.mp hev with hev | hev
      · rw [hok h] at hev
        rcases segEvents_mem _ _ hev with hx | hx
        · exact Or.inl ⟨_, hx⟩
        · exact Or.inr ⟨_, _, hx⟩
      · exact ih _ ev hev

/-! ### Helper lemmas about processBody and processFrame -/

theorem processBody_eq_thrown {α : Type} (st : CaptureState α)
    (hdr : FrameHeader) (remainder : List Nat) (s d : String) (sp dp : Nat)
    (e : String)
    (h : (processSegments st remainder hdr.segmentCount 0).2.2 = some e) :
    processBody st hdr remainder s d sp dp =
      { events := (processSegments st remainder hdr.segmentCount 0).2.1
        thrown := some e } := by
  simp only [processBody, h]

theorem processBody_eq_ok {α : Type} (st : CaptureState α) (hdr : FrameHeader)
    (remainder : List Nat) (s d : String) (sp dp : Nat)
    (h : (processSegments st remainder hdr.segmentCount 0).2.2 = none) :
    processBody st hdr remainder s d sp dp =
      { events := (processSegments st remainder hdr.segmentCount 0).2.1 ++
          [Event.packet
            { source := { address := s, port := sp }
              destination := { address := d, port := dp }
              childFrame :=
                { header := hdr
                  segments := (processSegments st remainder hdr.segmentCount 0).1 } },
           Event.diagnostics]
        thrown := none } := by
  simp only [processBody, h]

theorem processBody_no_error {α : Type} (st : CaptureState α)
    (hdr : FrameHeader) (remainder : List Nat) (s d : String) (sp dp : Nat)
    (msg : String) :
    Event.error msg ∉ (processBody st hdr remainder s d sp dp).events := by
  intro hmem
  cases h : (processSegments st remainder hdr.segmentCount 0).2.2 with
  | some e =>
    rw [processBody_eq_thrown st hdr remainder s d sp dp e h] at hmem
    rcases processSegments_events_mem st remainder _ _ _ hmem with ⟨s', hs⟩ | ⟨nm, s', hs⟩ <;>
      cases hs
  | none =>
    rw [processBody_eq_ok st hdr remainder s d sp dp h] at hmem
    rcases List.mem_append.mp hmem with hmem | hmem
    · rcases processSegments_events_mem st remainder _ _ _ hmem with ⟨s', hs⟩ | ⟨nm, s', hs⟩ <;>
        cases hs
    · rcases List.mem_cons.mp hmem with hx | hx
      · cases hx
      · cases List.mem_singleton.mp hx

theorem processBody_thrown_events {α : Type} (st : CaptureState α)
    (hdr : FrameHeader) (remainder : List Nat) (s d : String) (sp dp : Nat)
    (hth : (processBody st hdr remainder s d sp dp).thrown ≠ none) :
    (∀ pkt, Event.packet pkt ∉ (processBody st hdr remainder s d sp dp).events) ∧
    Event.diagnostics ∉ (processBody st hdr remainder s d sp dp).events ∧
    (∀ msg, Event.error msg ∉ (processBody st hdr remainder s d sp dp).events) := by
  cases h : (processSegments st remainder hdr.segmentCount 0).2.2 with
  | none =>
    rw [processBody_eq_ok st hdr remainder s d sp dp h] at hth
    simp at hth
  | some e =>
    rw [processBody_eq_thrown st hdr remainder s d sp dp e h] at hth ⊢
    refine ⟨?_, ?_, ?_⟩
    · intro pkt hmem
      rcases processSegments_events_mem st remainder _ _ _ hmem with ⟨s', hs⟩ | ⟨nm, s', hs⟩ <;>
        cases hs
    · intro hmem
      rcases processSegments_events_mem st remainder _ _ _ hmem with ⟨s', hs⟩ | ⟨nm, s', hs⟩ <;>
        cases hs
    · intro msg hmem
      rcases processSegments_events_mem st remainder _ _ _ hmem with ⟨s', hs⟩ | ⟨nm, s', hs⟩ <;>
        cases hs

/-! ### Concrete fixtures used by witnesses and counterexamples -/

/-- Bool test for an error event. -/
def isErrorEvent {α : Type} : Event α → Bool
  | Event.error _ => true
  | _ => false

/-- A capture state with an empty opcode map, no constants and an empty
registry. -/
def stEmpty : CaptureState Nat :=
  { opcodes := some [], constants := none, region := "Global", packetDefs := [] }

/-- A registry holding one decoder that always throws "boom". -/
def throwingDefs : List (String × Decoder Nat) :=
  [("npcSpawn", fun _ _ => Except.error "boom")]

/-- A capture state that maps opcode 100 to NpcSpawn, has constants for the
Global region, and whose npcSpawn decoder throws. -/
def stThrow : CaptureState Nat :=
  { opcodes := some [(100, "NpcSpawn")], constants := some [("Global", [])]
    region := "Global", packetDefs := throwingDefs }

/-- A 48-byte frame body holding one IPC segment (type 3) with opcode 100 and a
16-byte zero IPC body. -/
def ipcSegBody : List Nat :=
  [48, 0, 0, 0, 0, 0, 0, 0, 0, 0, 0, 0, 3, 0, 0, 0] ++
  [0, 0, 100, 0, 0, 0, 0, 0, 0, 0, 0, 0, 0, 0, 0, 0] ++
  List.replicate 16 0

/-! ### C1 -/

/-- Counterexample to C1 at a concrete input: a compressed frame whose inflate
fails with "invalid stored block lengths" (not the header-check error) is NOT
reported through an error event and is NOT dropped — the processor emits the
packet and diagnostics events computed from the still-compressed body, and no
error event appears. -/
theorem c1_counterexample :
    processFrame stEmpty (fun _ => Except.error "invalid stored block lengths")
      { magic := FRAME_MAGIC, timestamp := 0, size := 43, connectionType := 0,
        segmentCount := 0, isCompressed := true }
      (List.replicate 40 0 ++ [1, 2, 3]) "10.0.0.1" "10.0.0.2" 54992 55000 =
      { events := [Event.packet
          { source := { address := "10.0.0.1", port := 54992 }
            destination := { address := "10.0.0.2", port := 55000 }
            childFrame :=
              { header :=
                  { magic := FRAME_MAGIC, timestamp := 0, size := 43,
                    connectionType := 0, segmentCount := 0, isCompressed := true }
                segments := [] } },
          Event.diagnostics]
        thrown := none } ∧
    ((processFrame stEmpty
        (fun _ => Except.error "invalid stored block lengths")
        { magic := FRAME_MAGIC, timestamp := 0, size := 43, connectionType := 0,
          segmentCount := 0, isCompressed := true }
        (List.replicate 40 0 ++ [1, 2, 3]) "10.0.0.1" "10.0.0.2" 54992
        55000).events.any isErrorEvent) = false := by
  constructor
  · rfl
  · rfl

/-- Claim C1 (amended): for every compressed frame whose body fails inflation with an
error other than "incorrect header check", the catch block swallows the error:
no error event is emitted (the processor never emits error events at all) and
the frame is not dropped — processing continues on the original, still
compressed body. -/
theorem c1_inflate_error_swallowed {α : Type} (st : CaptureState α)
    (inflate : List Nat → Except String (List Nat)) (hdr : FrameHeader)
    (buf : List Nat) (s d : String) (sp dp : Nat) (e : String)
    (hc : hdr.isCompressed = true)
    (hi : inflate (buf.drop FRAME_HEADER_SIZE) = Except.error e)
    (hne : e ≠ "incorrect header check") :
    processFrame st inflate hdr buf s d sp dp =
      processBody st hdr (buf.drop FRAME_HEADER_SIZE) s d sp dp ∧
    ∀ msg, Event.error msg ∉ (processFrame st inflate hdr buf s d sp dp).events := by
  have h1 : processFrame st inflate hdr buf s d sp dp =
      processBody st hdr (buf.drop FRAME_HEADER_SIZE) s d sp dp := by
    simp [processFrame, hc, hi, hne]
  refine ⟨h1, fun msg => ?_⟩
  rw [h1]
  exact processBody_no_error st hdr (buf.drop FRAME_HEADER_SIZE) s d sp dp msg

/-- Witness for C1 (amended) at a concrete input. -/
theorem c1_inflate_error_swallowed_witness :
    processFrame stEmpty (fun _ => Except.error "too many length or distance symbols")
      { magic := FRAME_MAGIC, timestamp := 0, size := 40, connectionType := 0,
        segmentCount := 0, isCompressed := true }
      (List.replicate 40 0) "10.0.0.1" "10.0.0.2" 54992 55000 =
      processBody stEmpty
        { magic := FRAME_MAGIC, timestamp := 0, size := 40, connectionType := 0,
          segmentCount := 0, isCompressed := true }
        ((List.replicate 40 0).drop FRAME_HEADER_SIZE) "10.0.0.1" "10.0.0.2"
        54992 55000 ∧
    ∀ msg, Event.error msg ∉
      (processFrame stEmpty
        (fun _ => Except.error "too many length or distance symbols")
        { magic := FRAME_MAGIC, timestamp := 0, size := 40, connectionType := 0,
          segmentCount := 0, isCompressed := true }
        (List.replicate 40 0) "10.0.0.1" "10.0.0.2" 54992 55000).events :=
  c1_inflate_error_swallowed stEmpty
    (fun _ => Except.error "too many length or distance symbols")
    { magic := FRAME_MAGIC, timestamp := 0, size := 40, connectionType := 0,
      segmentCount := 0, isCompressed := true }
    (List.replicate 40 0) "10.0.0.1" "10.0.0.2" 54992 55000
    "too many length or distance symbols" rfl rfl (by decide)

/-! ### C2 -/

/-- Counterexample to C2 at a concrete input: a frame with one IPC segment
whose registered decoder throws "boom" produces no events at all — the
exception is not caught (it escapes the processor), no error event is emitted,
and neither the segment nor the packet event is emitted. -/
theorem c2_counterexample :
    processFrame stThrow (fun _ => Except.error "x")
      { magic := FRAME_MAGIC, timestamp := 0, size := 88, connectionType := 0,
        segmentCount := 1, isCompressed := false }
      (List.replicate 40 0 ++ ipcSegBody) "10.0.0.1" "10.0.0.2" 54992 55000 =
      { events := [], thrown := some "boom" } := by
  rfl

/-- Claim C2 (amended): when a decoder throws, the exception is NOT caught: the
segment-loop iteration produces no events (no message, no segment, no error),
the thrown exception aborts the loop (the throwing segment having already been
pushed into the packet record), and the frame's packet and diagnostics events
are never emitted. -/
theorem c2_decoder_exception_uncaught {α : Type} (st : CaptureState α)
    (remainder : List Nat) (offset : Nat) (m : OpcodeMap) (dec : Decoder α)
    (cs : List (String × ConstantsList)) (e : String)
    (hop : st.opcodes = some m)
    (hty : ((parseSegmentHeader (remainder.drop offset)).segmentType ==
      SegmentType.Ipc) = true)
    (hld : lookupDef st.packetDefs
      (resolveName m
        (parseIpcHeader (remainder.drop (offset + SEG_HEADER_SIZE))).type) =
      some dec)
    (hcs : st.constants = some cs)
    (hdec : dec (ipcDataAt remainder offset) (constantsFor cs st.region) =
      Except.error e) :
    (processOneSegment st remainder offset).thrown = some e ∧
    (processOneSegment st remainder offset).events = [] ∧
    (∀ n, processSegments st remainder (n + 1) offset =
      ([(processOneSegment st remainder offset).seg], [], some e)) ∧
    (∀ (hdr : FrameHeader) (s d : String) (sp dp : Nat),
      (processBody st hdr remainder s d sp dp).thrown ≠ none →
        (∀ pkt, Event.packet pkt ∉ (processBody st hdr remainder s d sp dp).events) ∧
        Event.diagnostics ∉ (processBody st hdr remainder s d sp dp).events ∧
        (∀ msg, Event.error msg ∉ (processBody st hdr remainder s d sp dp).events)) := by
  have h1 : (processOneSegment st remainder offset).thrown = some e := by
    simp [processOneSegment, hty, hop, hld, hcs, hdec]
  have h2 : (processOneSegment st remainder offset).events = [] := by
    simp [processOneSegment, hty, hop, hld, hcs, hdec]
  refine ⟨h1, h2, fun n => ?_, fun hdr s d sp dp hth =>
    processBody_thrown_events st hdr remainder s d sp dp hth⟩
  rw [processSegments_succ_thrown st remainder n offset e h1, h2]

/-- Witness for C2 (amended) at a concrete input. -/
theorem c2_decoder_exception_uncaught_witness :
    (processOneSegment stThrow ipcSegBody 0).thrown = some "boom" ∧
    (processOneSegment stThrow ipcSegBody 0).events = [] :=
  ⟨(c2_decoder_exception_uncaught stThrow ipcSegBody 0 [(100, "NpcSpawn")]
      (fun _ _ => Except.error "boom") [("Global", [])] "boom" rfl (by decide)
      rfl rfl rfl).1,
   (c2_decoder_exception_uncaught stThrow ipcSegBody 0 [(100, "NpcSpawn")]
      (fun _ _ => Except.error "boom") [("Global", [])] "boom" rfl (by decide)
      rfl rfl rfl).2.1⟩

/-! ### C3 -/

/-- Claim C3: for every frame with isCompressed set whose body inflate rejects with
the error "incorrect header check" (encrypted frame), processing returns
silently: no segment events, no packet event, no error event and no exception. -/
theorem c3_encrypted_frame_dropped_silently {α : Type} (st : CaptureState α)
    (inflate : List Nat → Except String (List Nat)) (hdr : FrameHeader)
    (buf : List Nat) (s d : String) (sp dp : Nat)
    (hc : hdr.isCompressed = true)
    (hi : inflate (buf.drop FRAME_HEADER_SIZE) =
      Except.error "incorrect header check") :
    processFrame st inflate hdr buf s d sp dp =
      { events := [], thrown := none } := by
  simp [processFrame, hc, hi]

/-- Witness for C3 at a concrete input. -/
theorem c3_encrypted_frame_dropped_silently_witness :
    processFrame stEmpty (fun _ => Except.error "incorrect header check")
      { magic := FRAME_MAGIC, timestamp := 0, size := 56, connectionType := 0,
        segmentCount := 1, isCompressed := true }
      (List.replicate 56 7) "10.0.0.1" "10.0.0.2" 54992 55000 =
      { events := [], thrown := none } :=
  c3_encrypted_frame_dropped_silently stEmpty
    (fun _ => Except.error "incorrect header check")
    { magic := FRAME_MAGIC, timestamp := 0, size := 56, connectionType := 0,
      segmentCount := 1, isCompressed := true }
    (List.replicate 56 7) "10.0.0.1" "10.0.0.2" 54992 55000 rfl rfl

/-! ### C4 -/

/-- Claim C4: for every frame the processor completes (no exception escaped the
segment loop), the emitted sequence is: for each processed segment in order its
per-segment block — a message event immediately followed by the segment event
when the segment carries an IPC header, the segment event alone otherwise —
then exactly one packet event holding exactly those segments, then exactly one
diagnostics event. -/
theorem c4_event_order {α : Type} (st : CaptureState α) (hdr : FrameHeader)
    (remainder : List Nat) (s d : String) (sp dp : Nat)
    (h : (processBody st hdr remainder s d sp dp).thrown = none) :
    ∃ pairs : List (String × Segment α),
      (processBody st hdr remainder s d sp dp).events =
        (pairs.map segEvents).flatten ++
          [Event.packet
            { source := { address := s, port := sp }
              destination := { address := d, port := dp }
              childFrame := { header := hdr, segments := pairs.map Prod.snd } },
           Event.diagnostics] ∧
      ∀ p ∈ pairs, p.2.ipcHeader.isSome =
        (p.2.header.segmentType == SegmentType.Ipc) := by
  cases hs : (processSegments st remainder hdr.segmentCount 0).2.2 with
  | some e =>
    rw [processBody_eq_thrown st hdr remainder s d sp dp e hs] at h
    cases h
  | none =>
    obtain ⟨pairs, h1, h2, h3⟩ := processSegments_pairs st remainder _ _ hs
    refine ⟨pairs, ?_, h3⟩
    rw [processBody_eq_ok st hdr remainder s d sp dp hs, h1, h2]

/-- Witness for C4 at a concrete input: a frame with one keepalive segment. -/
theorem c4_event_order_witness :
    ∃ pairs : List (String × Segment Nat),
      (processBody stEmpty
        { magic := KEEPALIVE_MAGIC, timestamp := 0, size := 56,
          connectionType := 0, segmentCount := 1, isCompressed := false }
        ([16, 0, 0, 0, 0, 0, 0, 0, 0, 0, 0, 0, 7, 0, 0, 0]) "10.0.0.1"
        "10.0.0.2" 54992 55000).events =
        (pairs.map segEvents).flatten ++
          [Event.packet
            { source := { address := "10.0.0.1", port := 54992 }
              destination := { address := "10.0.0.2", port := 55000 }
              childFrame :=
                { header :=
                    { magic := KEEPALIVE_MAGIC, timestamp := 0, size := 56,
                      connectionType := 0, segmentCount := 1,
                      isCompressed := false }
                  segments := pairs.map Prod.snd } },
           Event.diagnostics] ∧
      ∀ p ∈ pairs, p.2.ipcHeader.isSome =
        (p.2.header.segmentType == SegmentType.Ipc) :=
  c4_event_order stEmpty
    { magic := KEEPALIVE_MAGIC, timestamp := 0, size := 56, connectionType := 0,
      segmentCount := 1, isCompressed := false }
    ([16, 0, 0, 0, 0, 0, 0, 0, 0, 0, 0, 0, 7, 0, 0, 0]) "10.0.0.1" "10.0.0.2"
    54992 55000 rfl

/-! ### C5 -/

/-- Claim C5: for every segment whose loop iteration completes (no exception), a
message event naming that segment is emitted iff the segment's type is IPC; and
a non-IPC segment record has ipcHeader, ipcData and parsedIpcData all absent. -/
theorem c5_message_iff_ipc {α : Type} (st : CaptureState α)
    (remainder : List Nat) (offset : Nat)
    (h : (processOneSegment st remainder offset).thrown = none) :
    ((∃ n, Event.message n (processOneSegment st remainder offset).seg ∈
        (processOneSegment st remainder offset).events) ↔
      ((processOneSegment st remainder offset).seg.header.segmentType ==
        SegmentType.Ipc) = true) ∧
    (((processOneSegment st remainder offset).seg.header.segmentType ==
        SegmentType.Ipc) = false →
      (processOneSegment st remainder offset).seg.ipcHeader = none ∧
      (processOneSegment st remainder offset).seg.ipcData = none ∧
      (processOneSegment st remainder offset).seg.parsedIpcData = none) := by
  obtain ⟨hhdr, -, hiso, hev, -, hnot⟩ :=
    processOneSegment_facts st remainder offset
  constructor
  · constructor
    · rintro ⟨n, hn⟩
      rw [hev h] at hn
      rw [hhdr, ← hiso]
      cases hih : (processOneSegment st remainder offset).seg.ipcHeader with
      | none => simp [segEvents, hih] at hn
      | some ih => rfl
    · intro hty
      rw [hhdr] at hty
      have hsome : (processOneSegment st remainder offset).seg.ipcHeader.isSome =
          true := by rw [hiso, hty]
      refine ⟨msgNameAt st remainder offset, ?_⟩
      rw [hev h]
      cases hih : (processOneSegment st remainder offset).seg.ipcHeader with
      | none => rw [hih] at hsome; cases hsome
      | some ih => simp [segEvents, hih]
  · intro hty
    rw [hhdr] at hty
    rw [hnot hty]
    exact ⟨rfl, rfl, rfl⟩

/-- Witness for C5 at a concrete input: one keepalive (non-IPC) segment. -/
theorem c5_message_iff_ipc_witness :
    ((∃ n, Event.message n
        (processOneSegment stEmpty
          [16, 0, 0, 0, 0, 0, 0, 0, 0, 0, 0, 0, 7, 0, 0, 0] 0).seg ∈
        (processOneSegment stEmpty
          [16, 0, 0, 0, 0, 0, 0, 0, 0, 0, 0, 0, 7, 0, 0, 0] 0).events) ↔
      ((processOneSegment stEmpty
          [16, 0, 0, 0, 0, 0, 0, 0, 0, 0, 0, 0, 7, 0, 0, 0] 0).seg.header.segmentType ==
        SegmentType.Ipc) = true) ∧
    (((processOneSegment stEmpty
        [16, 0, 0, 0, 0, 0, 0, 0, 0, 0, 0, 0, 7, 0, 0, 0] 0).seg.header.segmentType ==
        SegmentType.Ipc) = false →
      (processOneSegment stEmpty
        [16, 0, 0, 0, 0, 0, 0, 0, 0, 0, 0, 0, 7, 0, 0, 0] 0).seg.ipcHeader = none ∧
      (processOneSegment stEmpty
        [16, 0, 0, 0, 0, 0, 0, 0, 0, 0, 0, 0, 7, 0, 0, 0] 0).seg.ipcData = none ∧
      (processOneSegment stEmpty
        [16, 0, 0, 0, 0, 0, 0, 0, 0, 0, 0, 0, 7, 0, 0, 0] 0).seg.parsedIpcData = none) :=
  c5_message_iff_ipc stEmpty [16, 0, 0, 0, 0, 0, 0, 0, 0, 0, 0, 0, 7, 0, 0, 0] 0 rfl

/-! ### C6 -/

theorem lookupDef_unknown_none {α : Type} (defs : List (String × Decoder α))
    (h : defs.map Prod.fst = packetProcessorNames) :
    lookupDef defs "unknown" = none := by
  unfold lookupDef
  cases hf : defs.find? (fun p => p.1 == "unknown") with
  | none => rfl
  | some p =>
    have hmem := List.mem_of_find?_eq_some hf
    have hpred := List.find?_some hf
    have hname : p.1 = "unknown" := by simpa using hpred
    have hin : "unknown" ∈ defs.map Prod.fst :=
      List.mem_map.mpr ⟨p, hmem, hname⟩
    rw [h] at hin
    exact absurd hin (by decide)

/-- Claim C6: for every IPC segment, the message name is the opcode-map entry with
its first character lowered, and the literal "unknown" when the opcode is
absent; in the unknown case (with the actual registry key set, which has no
"unknown" entry) no decoder runs, parsedIpcData stays absent, no exception is
thrown, and the message still carries the raw ipcData. -/
theorem c6_opcode_name_resolution {α : Type} (st : CaptureState α)
    (remainder : List Nat) (offset : Nat) (m : OpcodeMap)
    (hop : st.opcodes = some m)
    (hty : ((parseSegmentHeader (remainder.drop offset)).segmentType ==
      SegmentType.Ipc) = true) :
    (∀ s, opcodeLookup m
        (parseIpcHeader (remainder.drop (offset + SEG_HEADER_SIZE))).type =
        some s → s ≠ "" →
      resolveName m
        (parseIpcHeader (remainder.drop (offset + SEG_HEADER_SIZE))).type =
        lowerFirst s) ∧
    (opcodeLookup m
        (parseIpcHeader (remainder.drop (offset + SEG_HEADER_SIZE))).type =
        none →
      resolveName m
        (parseIpcHeader (remainder.drop (offset + SEG_HEADER_SIZE))).type =
        "unknown") ∧
    ((processOneSegment st remainder offset).thrown = none →
      (processOneSegment st remainder offset).events =
        [Event.message
          (resolveName m
            (parseIpcHeader (remainder.drop (offset + SEG_HEADER_SIZE))).type)
          (processOneSegment st remainder offset).seg,
         Event.segment (processOneSegment st remainder offset).seg]) ∧
    (opcodeLookup m
        (parseIpcHeader (remainder.drop (offset + SEG_HEADER_SIZE))).type =
        none →
      st.packetDefs.map Prod.fst = packetProcessorNames →
      (processOneSegment st remainder offset).thrown = none ∧
      (processOneSegment st remainder offset).seg.parsedIpcData = none ∧
      (processOneSegment st remainder offset).seg.ipcData =
        some (ipcDataAt remainder offset)) ∧
    "unknown" ∉ packetProcessorNames := by
  refine ⟨?_, ?_, ?_, ?_, by decide⟩
  · intro s hs hne
    have hbe : (s == "") = false := by
      cases hbe : s == "" with
      | false => rfl
      | true => exact absurd (by simpa using hbe) hne
    simp [resolveName, hs, hbe]
  · intro hs
    simp [resolveName, hs]
    decide
  · intro hth
    obtain ⟨hhdr, -, hiso, hev, -, -⟩ :=
      processOneSegment_facts st remainder offset
    rw [hev hth]
    have hsome : (processOneSegment st remainder offset).seg.ipcHeader.isSome =
        true := by rw [hiso, hty]
    cases hih : (processOneSegment st remainder offset).seg.ipcHeader with
    | none => rw [hih] at hsome; cases hsome
    | some ih =>
      simp only [segEvents, hih, msgNameAt, hop, Option.getD_some]
  · intro hs hreg
    have hunk : resolveName m
        (parseIpcHeader (remainder.drop (offset + SEG_HEADER_SIZE))).type =
        "unknown" := by simp [resolveName, hs]; decide
    have hld : lookupDef st.packetDefs
        (resolveName m
          (parseIpcHeader (remainder.drop (offset + SEG_HEADER_SIZE))).type) =
        none := by rw [hunk]; exact lookupDef_unknown_none st.packetDefs hreg
    cases hc : st.constants with
    | none => simp [processOneSegment, hty, hop, hld, hc]
    | some cs => simp [processOneSegment, hty, hop, hld, hc]

/-- A registry with the actual key set of loadPacketProcessors and trivial
decoders. -/
def fullDefs : List (String × Decoder Nat) :=
  packetProcessorNames.map (fun n => (n, fun _ _ => Except.ok 0))

/-- A capture state with the full registry key set, opcode 100 mapped to
NpcSpawn, and Global constants. -/
def stFull : CaptureState Nat :=
  { opcodes := some [(100, "NpcSpawn")], constants := some [("Global", [])]
    region := "Global", packetDefs := fullDefs }

/-- A 48-byte frame body holding one IPC segment with opcode 999, absent from
the opcode map of stFull. -/
def ipcSegBodyUnknown : List Nat :=
  [48, 0, 0, 0, 0, 0, 0, 0, 0, 0, 0, 0, 3, 0, 0, 0] ++
  [0, 0, 231, 3, 0, 0, 0, 0, 0, 0, 0, 0, 0, 0, 0, 0] ++
  List.replicate 16 0

/-- Witness for C6 at a concrete input: opcode 999 is absent, the name is
"unknown", no exception, parsedIpcData absent, raw ipcData attached. -/
theorem c6_opcode_name_resolution_witness :
    resolveName [(100, "NpcSpawn")]
      (parseIpcHeader (ipcSegBodyUnknown.drop (0 + SEG_HEADER_SIZE))).type =
      "unknown" ∧
    (processOneSegment stFull ipcSegBodyUnknown 0).thrown = none ∧
    (processOneSegment stFull ipcSegBodyUnknown 0).seg.parsedIpcData = none ∧
    (processOneSegment stFull ipcSegBodyUnknown 0).seg.ipcData =
      some (ipcDataAt ipcSegBodyUnknown 0) := by
  have h := c6_opcode_name_resolution stFull ipcSegBodyUnknown 0
    [(100, "NpcSpawn")] rfl (by decide)
  have h4 := h.2.2.2.1 (by decide) (by decide)
  exact ⟨h.2.1 (by decide), h4.1, h4.2.1, h4.2.2⟩

/-! ### C7 -/

theorem byteAt_take {l : List Nat} {n i : Nat} (h : i < n) :
    byteAt (l.take n) i = byteAt l i := by
  unfold byteAt
  rw [List.get?_eq_getElem?, List.get?_eq_getElem?, List.getElem?_take_of_lt h]

theorem readUInt16LE_congr {l₁ l₂ : List Nat} {o : Nat}
    (h0 : byteAt l₁ o = byteAt l₂ o)
    (h1 : byteAt l₁ (o + 1) = byteAt l₂ (o + 1)) :
    readUInt16LE l₁ o = readUInt16LE l₂ o := by
  unfold readUInt16LE
  rw [h0, h1]

theorem readUInt32LE_congr {l₁ l₂ : List Nat} {o : Nat}
    (h0 : byteAt l₁ o = byteAt l₂ o)
    (h1 : byteAt l₁ (o + 1) = byteAt l₂ (o + 1))
    (h2 : byteAt l₁ (o + 2) = byteAt l₂ (o + 2))
    (h3 : byteAt l₁ (o + 3) = byteAt l₂ (o + 3)) :
    readUInt32LE l₁ o = readUInt32LE l₂ o := by
  unfold readUInt32LE
  rw [h0, h1, h2, h3]

theorem parseFrameHeader_congr {l₁ l₂ : List Nat}
    (h : ∀ i, i < FRAME_HEADER_SIZE → byteAt l₁ i = byteAt l₂ i) :
    parseFrameHeader l₁ = parseFrameHeader l₂ := by
  have hb : ∀ i, i < 40 → byteAt l₁ i = byteAt l₂ i := h
  unfold parseFrameHeader
  congr 1
  · apply List.map_congr_left
    intro i hi
    exact hb i (lt_of_lt_of_le (List.mem_range.mp hi) (by decide))
  · unfold readUInt64LE
    rw [readUInt32LE_congr (hb 16 (by decide)) (hb 17 (by decide))
        (hb 18 (by decide)) (hb 19 (by decide)),
      readUInt32LE_congr (hb 20 (by decide)) (hb 21 (by decide))
        (hb 22 (by decide)) (hb 23 (by decide))]
  · exact readUInt32LE_congr (hb 24 (by decide)) (hb 25 (by decide))
      (hb 26 (by decide)) (hb 27 (by decide))
  · exact readUInt16LE_congr (hb 28 (by decide)) (hb 29 (by decide))
  · exact readUInt16LE_congr (hb 30 (by decide)) (hb 31 (by decide))
  · rw [hb 33 (by decide)]

theorem tryGetFrameHeader_inv {buf : QueueBuffer} {h : FrameHeader}
    (ht : tryGetFrameHeader buf = some h) :
    FRAME_HEADER_SIZE ≤ buf.length ∧
      h = parseFrameHeader (buf.take FRAME_HEADER_SIZE) := by
  unfold tryGetFrameHeader QueueBuffer.peek at ht
  by_cases hlen : buf.length < FRAME_HEADER_SIZE
  · rw [if_pos hlen] at ht; cases ht
  · rw [if_neg hlen] at ht
    exact ⟨Nat.not_lt.mp hlen, (Option.some.injEq _ _ ▸ ht).symm⟩

theorem drainFrames_stalled (buf : QueueBuffer) (h : drainStalled buf) :
    ∀ fuel, drainFrames fuel buf = ([], buf) := by
  intro fuel
  cases fuel with
  | zero => rfl
  | succ k =>
    unfold drainFrames
    by_cases hlen : buf.length < FRAME_HEADER_SIZE
    · simp [tryGetFrameHeader, QueueBuffer.peek, hlen]
    · have hp : tryGetFrameHeader buf =
          some (parseFrameHeader (buf.take FRAME_HEADER_SIZE)) := by
        simp [tryGetFrameHeader, QueueBuffer.peek, hlen]
      rw [hp]
      simp only
      rcases h with h | h | h
      · exact absurd h hlen
      · rw [if_neg]
        intro hcon
        rw [h] at hcon
        cases hcon.1
      · rw [if_neg]
        intro hcon
        exact absurd hcon.2 (Nat.not_le.mpr h)

theorem drainFrames_complete :
    ∀ (frames : List (List Nat)) (rest : QueueBuffer),
      (∀ f ∈ frames, FRAME_HEADER_SIZE ≤ f.length ∧
        isMagical (parseFrameHeader f) = true ∧
        (parseFrameHeader f).size = f.length) →
      drainStalled rest →
      ∀ fuel, frames.length ≤ fuel →
        drainFrames fuel (frames.flatten ++ rest) =
          (frames.map (fun f => (parseFrameHeader f, f)), rest) := by
  intro frames
  induction frames with
  | nil =>
    intro rest hf hr fuel hfuel
    simpa using drainFrames_stalled rest hr fuel
  | cons f fs ih =>
    intro rest hf hr fuel hfuel
    cases fuel with
    | zero => simp at hfuel
    | succ k =>
      obtain ⟨hlen, hmag, hsize⟩ := hf f (List.mem_cons_self f fs)
      have hbuf : (f :: fs).flatten ++ rest = f ++ (fs.flatten ++ rest) := by
        simp
      rw [hbuf]
      have hlen2 : ¬((f ++ (fs.flatten ++ rest)).length < FRAME_HEADER_SIZE) := by
        simp only [List.length_append]
        omega
      have htake : (f ++ (fs.flatten ++ rest)).take FRAME_HEADER_SIZE =
          f.take FRAME_HEADER_SIZE := List.take_append_of_le_length hlen
      have hparse : parseFrameHeader
          ((f ++ (fs.flatten ++ rest)).take FRAME_HEADER_SIZE) =
          parseFrameHeader f := by
        rw [htake]
        exact parseFrameHeader_congr (fun i hi => byteAt_take hi)
      have htry : tryGetFrameHeader (f ++ (fs.flatten ++ rest)) =
          some (parseFrameHeader f) := by
        unfold tryGetFrameHeader QueueBuffer.peek
        rw [if_neg hlen2]
        show some (parseFrameHeader
          ((f ++ (fs.flatten ++ rest)).take FRAME_HEADER_SIZE)) =
          some (parseFrameHeader f)
        rw [hparse]
      unfold drainFrames
      rw [htry]
      simp only
      rw [if_pos]
      · have hpop1 : (QueueBuffer.pop (f ++ (fs.flatten ++ rest))
            (parseFrameHeader f).size).1 = f := by
          rw [QueueBuffer.pop, hsize]
          exact List.take_left f (fs.flatten ++ rest)
        have hpop2 : (QueueBuffer.pop (f ++ (fs.flatten ++ rest))
            (parseFrameHeader f).size).2 = fs.flatten ++ rest := by
          rw [QueueBuffer.pop, hsize]
          exact List.drop_left f (fs.flatten ++ rest)
        rw [hpop1, hpop2,
          ih rest (fun g hg => hf g (List.mem_cons_of_mem f hg)) hr k
            (Nat.le_of_succ_le_succ hfuel)]
        simp
      · refine ⟨hmag, ?_⟩
        rw [hsize, QueueBuffer.size]
        simp only [List.length_append]
        omega

/-- Claim C7: the reassembler loop exits when fewer than FRAME_HEADER_SIZE bytes are
buffered; exits without consuming anything and without erroring when the peeked
header is not magical; exits when the buffered size is below header.size; and
otherwise pops exactly header.size bytes per frame, so that after a push any
number of complete magical frames buffered back-to-back are all drained in
arrival order, leaving the stalled remainder untouched. -/
theorem c7_reassembler_drain :
    (∀ buf : QueueBuffer, buf.length < FRAME_HEADER_SIZE →
      ∀ fuel, drainFrames fuel buf = ([], buf)) ∧
    (∀ (buf : QueueBuffer) (h : FrameHeader), tryGetFrameHeader buf = some h →
      isMagical h = false → ∀ fuel, drainFrames fuel buf = ([], buf)) ∧
    (∀ (buf : QueueBuffer) (h : FrameHeader), tryGetFrameHeader buf = some h →
      QueueBuffer.size buf < h.size → ∀ fuel, drainFrames fuel buf = ([], buf)) ∧
    (∀ (prior frag : List Nat) (frames : List (List Nat)) (rest : QueueBuffer),
      QueueBuffer.push prior frag = frames.flatten ++ rest →
      (∀ f ∈ frames, FRAME_HEADER_SIZE ≤ f.length ∧
        isMagical (parseFrameHeader f) = true ∧
        (parseFrameHeader f).size = f.length) →
      drainStalled rest →
      ∀ fuel, frames.length ≤ fuel →
        drainFrames fuel (QueueBuffer.push prior frag) =
          (frames.map (fun f => (parseFrameHeader f, f)), rest)) := by
  refine ⟨?_, ?_, ?_, ?_⟩
  · intro buf hlen fuel
    exact drainFrames_stalled buf (Or.inl hlen) fuel
  · intro buf h ht hmag fuel
    obtain ⟨hlen, hh⟩ := tryGetFrameHeader_inv ht
    exact drainFrames_stalled buf (Or.inr (Or.inl (hh ▸ hmag))) fuel
  · intro buf h ht hsz fuel
    obtain ⟨hlen, hh⟩ := tryGetFrameHeader_inv ht
    exact drainFrames_stalled buf (Or.inr (Or.inr (hh ▸ hsz))) fuel
  · intro prior frag frames rest hpush hf hr fuel hfuel
    rw [hpush]
    exact drainFrames_complete frames rest hf hr fuel hfuel

/-- A 40-byte frame with the standard magic, size 40 and no segments. -/
def magicalFrame40 : List Nat :=
  FRAME_MAGIC ++ List.replicate 8 0 ++ [40, 0, 0, 0] ++ List.replicate 12 0

/-- Witness for C7 at a concrete input: pushing one complete magical 40-byte
frame onto an empty buffer drains exactly that frame and leaves the buffer
empty. -/
theorem c7_reassembler_drain_witness :
    drainFrames 1 (QueueBuffer.push [] magicalFrame40) =
      ([(parseFrameHeader magicalFrame40, magicalFrame40)], []) :=
  c7_reassembler_drain.2.2.2 [] magicalFrame40 [magicalFrame40] []
    (by decide) (by decide) (Or.inl (by decide)) 1 (by decide)

/-! ### C8 -/

/-- Counterexample to C8 at a concrete input: a frame with segmentCount = 2 and
an empty body.  Zero segments "fit in the body", yet the processor emits TWO
segment events (with zero-filled headers parsed past the end of the body)
rather than stopping at the segments that fit. -/
theorem c8_counterexample :
    processFrame stEmpty (fun _ => Except.error "x")
      { magic := FRAME_MAGIC, timestamp := 0, size := 40, connectionType := 0,
        segmentCount := 2, isCompressed := false }
      (List.replicate 40 0) "10.0.0.1" "10.0.0.2" 54992 55000 =
      { events := [Event.segment
          { header :=
              { size := 0, sourceActor := 0, targetActor := 0, segmentType := 0 }
            ipcHeader := none, ipcData := none, parsedIpcData := none },
          Event.segment
          { header :=
              { size := 0, sourceActor := 0, targetActor := 0, segmentType := 0 }
            ipcHeader := none, ipcData := none, parsedIpcData := none },
          Event.packet
          { source := { address := "10.0.0.1", port := 54992 }
            destination := { address := "10.0.0.2", port := 55000 }
            childFrame :=
              { header :=
                  { magic := FRAME_MAGIC, timestamp := 0, size := 40,
                    connectionType := 0, segmentCount := 2,
                    isCompressed := false }
                segments := [
                  { header :=
                      { size := 0, sourceActor := 0, targetActor := 0,
                        segmentType := 0 }
                    ipcHeader := none, ipcData := none, parsedIpcData := none },
                  { header :=
                      { size := 0, sourceActor := 0, targetActor := 0,
                        segmentType := 0 }
                    ipcHeader := none, ipcData := none,
                    parsedIpcData := none }] } },
          Event.diagnostics]
        thrown := none } := by
  rfl

/-- Claim C8 (amended): the segment loop always runs exactly segmentCount iterations
regardless of the body length — when no exception is thrown the packet carries
exactly segmentCount segments (truncated reads parse as zero-filled headers
instead of stopping), it does not error, trailing bytes beyond the processed
segments are discarded, and a frame with segmentCount = 0 emits a packet with
an empty segment list, a diagnostics event and no segment events. -/
theorem c8_segment_count_behaviour {α : Type} (st : CaptureState α)
    (hdr : FrameHeader) (remainder : List Nat) (s d : String) (sp dp : Nat)
    (h0 : hdr.segmentCount = 0) :
    processBody st hdr remainder s d sp dp =
      { events := [Event.packet
          { source := { address := s, port := sp }
            destination := { address := d, port := dp }
            childFrame := { header := hdr, segments := [] } },
          Event.diagnostics]
        thrown := none } ∧
    (∀ (hdr2 : FrameHeader) (remainder2 : List Nat),
      (processSegments st remainder2 hdr2.segmentCount 0).2.2 = none →
      (processBody st hdr2 remainder2 s d sp dp).thrown = none ∧
      ∀ pkt, Event.packet pkt ∈ (processBody st hdr2 remainder2 s d sp dp).events →
        pkt.childFrame.segments.length = hdr2.segmentCount) := by
  constructor
  · have hz : processSegments st remainder hdr.segmentCount 0 = ([], [], none) := by
      rw [h0]
      rfl
    rw [processBody_eq_ok st hdr remainder s d sp dp (by rw [hz])]
    rw [hz]
    rfl
  · intro hdr2 remainder2 hth
    refine ⟨by rw [processBody_eq_ok st hdr2 remainder2 s d sp dp hth], ?_⟩
    intro pkt hmem
    rw [processBody_eq_ok st hdr2 remainder2 s d sp dp hth] at hmem
    rcases List.mem_append.mp hmem with hmem | hmem
    · rcases processSegments_events_mem st remainder2 _ _ _ hmem with
        ⟨s', hs⟩ | ⟨nm, s', hs⟩ <;> cases hs
    · rcases List.mem_cons.mp hmem with hx | hx
      · cases hx
        show (processSegments st remainder2 hdr2.segmentCount 0).1.length =
          hdr2.segmentCount
        exact processSegments_length st remainder2 hdr2.segmentCount 0 hth
      · cases List.mem_singleton.mp hx

/-- Witness for C8 (amended) at a concrete input. -/
theorem c8_segment_count_behaviour_witness :
    processBody stEmpty
      { magic := KEEPALIVE_MAGIC, timestamp := 0, size := 40,
        connectionType := 0, segmentCount := 0, isCompressed := false }
      [] "10.0.0.1" "10.0.0.2" 54992 55000 =
      { events := [Event.packet
          { source := { address := "10.0.0.1", port := 54992 }
            destination := { address := "10.0.0.2", port := 55000 }
            childFrame :=
              { header :=
                  { magic := KEEPALIVE_MAGIC, timestamp := 0, size := 40,
                    connectionType := 0, segmentCount := 0,
                    isCompressed := false }
                segments := [] } },
          Event.diagnostics]
        thrown := none } :=
  (c8_segment_count_behaviour stEmpty
    { magic := KEEPALIVE_MAGIC, timestamp := 0, size := 40, connectionType := 0,
      segmentCount := 0, isCompressed := false }
    [] "10.0.0.1" "10.0.0.2" 54992 55000 rfl).1

/-! ### C9 -/

/-- Counterexample to C9 at a concrete input: after the ready event has fired,
a consumer that subscribes to ready receives nothing on subscription — the
delivery log stays empty even though the event was emitted. -/
theorem c9_counterexample :
    (Emitter.addListener
      (initReady { listeners := [], emitted := [], delivered := [] } true true)
      "ready" 7).delivered = [] ∧
    (initReady { listeners := [], emitted := [], delivered := [] } true
      true).emitted = ["ready"] := by
  constructor
  · rfl
  · rfl

/-- Claim C9 (amended): ready is emitted exactly once, after both the opcode and the
constants loads succeed, and not at all when either load fails; emit delivers
only to the listeners registered at emit time (a listener registered before the
emit is invoked), and subscribing after the fact delivers nothing — late
subscribers never receive the event. -/
theorem c9_ready_no_late_join :
    (∀ e : Emitter, (initReady e true true).emitted = e.emitted ++ ["ready"]) ∧
    (∀ (e : Emitter) (b c : Bool), b = false ∨ c = false →
      (initReady e b c).emitted = e.emitted) ∧
    (∀ (e : Emitter) (ev : String) (l : Nat),
      (Emitter.addListener e ev l).delivered = e.delivered) ∧
    (∀ l : Nat,
      (Emitter.emit
        (Emitter.addListener
          { listeners := [], emitted := [], delivered := [] } "ready" l)
        "ready").delivered = [("ready", l)]) := by
  refine ⟨fun e => rfl, ?_, fun e ev l => rfl, fun l => ?_⟩
  · intro e b c h
    rcases h with h | h
    · rw [h]; rfl
    · rw [h]
      cases b <;> rfl
  · simp [Emitter.emit, Emitter.addListener]

/-- Witness for C9 (amended) at a concrete input: with the constants load
failed, ready is not emitted. -/
theorem c9_ready_no_late_join_witness :
    (initReady { listeners := [], emitted := [], delivered := [] } true
      false).emitted = [] :=
  c9_ready_no_late_join.2.1
    { listeners := [], emitted := [], delivered := [] } true false (Or.inr rfl)

/-! ### C10 -/

/-- Claim C10: when the opcode lists are not loaded, or the selected region is absent
from them, updateOpcodesCache stores undefined (none) as the opcode map; and
processing an IPC segment with the opcode map undefined throws a TypeError on
the opcode lookup (emitting nothing) instead of yielding the name "unknown". -/
theorem c10_missing_region_throws {α : Type} (st : CaptureState α)
    (remainder : List Nat) (offset : Nat)
    (hop : st.opcodes = none)
    (hty : ((parseSegmentHeader (remainder.drop offset)).segmentType ==
      SegmentType.Ipc) = true) :
    (∀ r, updateOpcodesCache none r = none) ∧
    (∀ (ls : List OpcodeList) (r : String),
      ls.find? (fun ol => ol.region == r) = none →
      updateOpcodesCache (some ls) r = none) ∧
    (processOneSegment st remainder offset).thrown = some typeErrorMsg ∧
    (processOneSegment st remainder offset).events = [] := by
  refine ⟨fun r => rfl, ?_, ?_, ?_⟩
  · intro ls r hf
    rw [updateOpcodesCache, hf]
  · simp [processOneSegment, hty, hop]
  · simp [processOneSegment, hty, hop]

/-- Witness for C10 at a concrete input. -/
theorem c10_missing_region_throws_witness :
    (processOneSegment
      { opcodes := none, constants := none, region := "Chinese",
        packetDefs := ([] : List (String × Decoder Nat)) }
      ipcSegBody 0).thrown = some typeErrorMsg ∧
    (processOneSegment
      { opcodes := none, constants := none, region := "Chinese",
        packetDefs := ([] : List (String × Decoder Nat)) }
      ipcSegBody 0).events = [] :=
  ⟨(c10_missing_region_throws
      { opcodes := none, constants := none, region := "Chinese",
        packetDefs := ([] : List (String × Decoder Nat)) }
      ipcSegBody 0 rfl (by decide)).2.2.1,
   (c10_missing_region_throws
      { opcodes := none, constants := none, region := "Chinese",
        packetDefs := ([] : List (String × Decoder Nat)) }
      ipcSegBody 0 rfl (by decide)).2.2.2⟩
